import Mathlib

/-!
Shallow embedding of `src/datachain/lib/dc/datasets.py` (the functions
`read_dataset`, `datasets` and `delete_dataset`) together with the external
collaborators they consume (name parsing, project lookup, catalog dataset
lookup, version records).  Collaborators that are not part of the excerpt are
modelled from the specification and are marked as such in their doc comments;
everything else is translated directly from the Python source.
-/

set_option autoImplicit false

deriving instance DecidableEq for Except

namespace Datachain

/-- Semantic version with major, minor and patch components. -/
structure SemVer where
  major : Nat
  minor : Nat
  patch : Nat
deriving DecidableEq, Repr

/-- Strict lexicographic order on semantic versions. -/
def SemVer.lt (a b : SemVer) : Bool :=
  a.major < b.major ||
    (a.major == b.major &&
      (a.minor < b.minor || (a.minor == b.minor && a.patch < b.patch)))

/-- Non-strict lexicographic order on semantic versions. -/
def SemVer.le (a b : SemVer) : Bool :=
  a == b || SemVer.lt a b

/-- Rendering of a semantic version as the usual dotted string. -/
def SemVer.toString (v : SemVer) : String :=
  Nat.repr v.major ++ "." ++ Nat.repr v.minor ++ "." ++ Nat.repr v.patch

/-- Maximum of a list of semantic versions, `none` on the empty list. -/
def listMaxV : List SemVer → Option SemVer
  | [] => none
  | v :: vs =>
    match listMaxV vs with
    | none => some v
    | some m => if SemVer.lt m v then some v else some m

/-- Modelled from the spec: `DatasetRecord.latest_major_version` lives outside
the excerpt (`datachain/dataset.py`); the spec says an integer version is a
major-version selector that must "resolve to its highest version whose major
component matches".  Returns `none` when no stored version has the given
major component. -/
def latest_major_version (major : Int) (versions : List SemVer) : Option SemVer :=
  listMaxV (versions.filter (fun v => ((v.major : Int) == major)))

/-- Modelled from the spec: `DatasetRecord.latest_version` lives outside the
excerpt; the spec calls it "the dataset's latest version as reported by the
catalog", i.e. the maximum stored semantic version. -/
def latest_version (versions : List SemVer) : Option SemVer :=
  listMaxV versions

/-- Dataset metadata record: the portion of the catalog's dataset model the
excerpt consumes (its list of stored versions). -/
structure DatasetRecord where
  versions : List SemVer
deriving DecidableEq, Repr

/-- Project handle returned by the project lookup: a namespace name and a
project name. -/
structure Project where
  ns : String
  name : String
deriving DecidableEq, Repr, BEq

/-- Entry of the catalog's dataset table: a dataset record keyed by namespace,
project and short dataset name. -/
structure DatasetEntry where
  ns : String
  proj : String
  name : String
  record : DatasetRecord
deriving DecidableEq, Repr

/-- External catalog/metastore state consumed by the excerpt: the default
namespace and project names, the set of existing projects, the dataset table
and the predicate telling whether a namespace is locally owned. -/
structure Catalog where
  default_namespace_name : String
  default_project_name : String
  projects : List Project
  entries : List DatasetEntry
  is_local_dataset : String → Bool

/-- Distinct error conditions raised by the excerpt and its collaborators:
dataset-not-found (whose payload keeps the separate message strings the
Python code passes to the exception constructor), dataset-version-not-found
and project-not-found. -/
inductive DCError where
  | datasetNotFound (msgs : List String)
  | datasetVersionNotFound (msg : String)
  | projectNotFound (msg : String)
deriving DecidableEq, Repr

/-- Modelled from the spec: `parse_dataset_name` lives outside the excerpt
(`datachain/dataset.py`).  The spec: "A name string containing two
dot-separated qualifiers is split into namespace/project/name in that order";
a name without qualifiers keeps `none` for namespace and project. -/
def splitDotsAux : List Char → List Char → List (List Char)
  | [], acc => [acc.reverse]
  | c :: cs, acc =>
    if c == '.' then acc.reverse :: splitDotsAux cs []
    else splitDotsAux cs (c :: acc)

/-- Splitting of a string on the dot character, mirroring Python's
`str.split(".")`. -/
def splitDots (s : String) : List String :=
  (splitDotsAux s.toList []).map (fun l => String.mk l)

/-- Modelled from the spec: split of a possibly-qualified dataset name into
optional namespace, optional project and short name (see `splitDotsAux`). -/
def parse_dataset_name (name : String) : Option String × Option String × String :=
  match splitDots name with
  | [ns, proj, short] => (some ns, some proj, short)
  | _ => (none, none, name)

/-- Python truthiness filter on an optional string: `none` and the empty
string are falsy. -/
def truthyOpt : Option String → Option String
  | some s => if s == "" then none else some s
  | none => none

/-- Embedding of the Python expression
`parsed or argument or default` used for both the namespace and the project
component: the component extracted from the name wins when truthy, else the
explicit argument when truthy, else the catalog default. -/
def resolveComponent (parsed arg : Option String) (dflt : String) : String :=
  match truthyOpt parsed with
  | some s => s
  | none =>
    match truthyOpt arg with
    | some s => s
    | none => dflt

/-- Embedding of the shared name-resolution prelude of `read_dataset`
(lines 128-132) and `delete_dataset` (lines 323-327): parse the name, then
apply the `or`-chains for namespace and project.  Returns
`(namespace_name, project_name, name)`. -/
def resolveNames (cat : Catalog) (name : String) (nsArg projArg : Option String) :
    String × String × String :=
  let p := parse_dataset_name name
  (resolveComponent p.1 nsArg cat.default_namespace_name,
   resolveComponent p.2.1 projArg cat.default_project_name,
   p.2.2)

/-- Project lookup (`datachain.lib.projects.get`): returns the project handle
when the catalog knows the (namespace, project) pair, and a
project-not-found error otherwise. -/
def get_project (cat : Catalog) (projName nsName : String) : Except DCError Project :=
  if cat.projects.contains ⟨nsName, projName⟩ then .ok ⟨nsName, projName⟩
  else .error (.projectNotFound ("project " ++ projName ++ " in namespace " ++ nsName ++ " not found"))

/-- Lookup of a dataset record by namespace, project and short name in the
catalog's dataset table. -/
def lookupDataset (cat : Catalog) (nsName projName name : String) : Option DatasetRecord :=
  (cat.entries.find? (fun e => e.ns == nsName && e.proj == projName && e.name == name)).map
    (fun e => e.record)

/-- Catalog dataset lookup (`catalog.get_dataset`): returns the record or a
dataset-not-found error. -/
def Catalog.get_dataset (cat : Catalog) (name : String) (p : Project) :
    Except DCError DatasetRecord :=
  match lookupDataset cat p.ns p.name name with
  | some d => .ok d
  | none => .error (.datasetNotFound ["Dataset " ++ name ++ " not found"])

/-- Version argument of `read_dataset`: either an integer or a string. -/
inductive VersionArg where
  | int (i : Int)
  | str (s : String)
deriving DecidableEq, Repr

/-- Whitespace test covering the characters Python's `int` strips from a
string argument. -/
def isWs (c : Char) : Bool :=
  c == ' ' || c == '\t' || c == '\n' || c == '\r'

/-- Parse of a non-empty all-digit character list into a natural number. -/
def digitsToNat : List Char → Option Nat
  | [] => none
  | cs =>
    if cs.all Char.isDigit then
      some (cs.foldl (fun n c => 10 * n + (c.toNat - 48)) 0)
    else none

/-- Model of Python's `int()` applied to a string: surrounding whitespace is
stripped, then an optional sign followed by decimal digits is accepted;
anything else raises `ValueError`, modelled as `none`. -/
def parseIntPy (s : String) : Option Int :=
  let t := ((s.toList.dropWhile isWs).reverse.dropWhile isWs).reverse
  match t with
  | '-' :: rest => (digitsToNat rest).map (fun n => -(n : Int))
  | '+' :: rest => (digitsToNat rest).map (fun n => (n : Int))
  | _ => (digitsToNat t).map (fun n => (n : Int))

/-- Result of Python's `int(version)` on the version argument: an integer
argument is returned as is, a string argument goes through `parseIntPy`. -/
def VersionArg.toMajor : VersionArg → Option Int
  | .int i => some i
  | .str s => parseIntPy s

/-- Rendering of the version argument inside an f-string, as Python would. -/
def VersionArg.display : VersionArg → String
  | .int i => Int.repr i
  | .str s => s

/-- Message strings the `read_dataset` integer-resolution path passes to
`DatasetNotFoundError` when the project lookup fails (lines 146-149). -/
def readMsg (name nsName projName : String) : List String :=
  ["Dataset " ++ name ++ " not found in namespace " ++ nsName ++ " and",
   " project " ++ projName]

/-- Embedding of the version-resolution block of `read_dataset`
(lines 134-160): an integer-like version is treated as a major-version
selector against the local catalog (project lookup, dataset lookup, highest
matching version); a non-integer string falls into the `ValueError` branch
and passes through unchanged. -/
def resolveVersion (cat : Catalog) (nsName projName name : String) :
    Option VersionArg → Except DCError (Option String)
  | none => .ok none
  | some v =>
    match VersionArg.toMajor v with
    | none => .ok (some (VersionArg.display v))
    | some major =>
      match get_project cat projName nsName with
      | .error (.projectNotFound _) => .error (.datasetNotFound (readMsg name nsName projName))
      | .error e => .error e
      | .ok p =>
        match Catalog.get_dataset cat name p with
        | .error e => .error e
        | .ok d =>
          match latest_major_version major d.versions with
          | none =>
            .error (.datasetVersionNotFound
              ("Dataset " ++ name ++ " does not have version " ++ VersionArg.display v))
          | some lm => .ok (some (SemVer.toString lm))

/-- Arguments `read_dataset` hands to the `DatasetQuery` constructor
(lines 167-175), the part of the query object this layer determines. -/
structure DatasetQuery where
  name : String
  project_name : String
  namespace_name : String
  version : Option String
  fallback_to_studio : Bool
deriving DecidableEq, Repr

/-- Embedding of `read_dataset` up to the construction of the query: name
resolution, version resolution, then the `DatasetQuery` arguments. -/
def readDataset (cat : Catalog) (name : String) (nsArg projArg : Option String)
    (version : Option VersionArg) (fallback_to_studio : Bool) :
    Except DCError DatasetQuery :=
  let r := resolveNames cat name nsArg projArg
  match resolveVersion cat r.1 r.2.1 r.2.2 version with
  | .error e => .error e
  | .ok v =>
    .ok { name := r.2.2, project_name := r.2.1, namespace_name := r.1,
          version := v, fallback_to_studio := fallback_to_studio }

/-- Outcome of `delete_dataset`: either a remote-registry removal
(`remove_studio_dataset(None, name, namespace_name, project_name,
version=version, force=force)`) or a local catalog removal
(`catalog.remove_dataset(name, ds_project, version=version, force=force)`). -/
inductive DeleteAction where
  | studioRemove (name nsName projName : String) (version : Option String) (force : Bool)
  | localRemove (name : String) (ds_project : Project) (version : Option String) (force : Bool)
deriving DecidableEq, Repr

/-- Message strings `delete_dataset` passes to `DatasetNotFoundError` when the
project lookup fails (lines 337-340); note the split differs slightly from
`readMsg`. -/
def deleteMsg (name nsName projName : String) : List String :=
  ["Dataset " ++ name ++ " not found in namespace " ++ nsName ++ " and project",
   " " ++ projName]

/-- Embedding of the local tail of `delete_dataset` (lines 342-346): when
`force` is not set, `version = version or catalog.get_dataset(...).latest_version`
(Python `or`, so an absent or empty version triggers the catalog lookup);
when `force` is set, `version` is reset to `None`. -/
def deleteLocal (cat : Catalog) (name : String) (ds_project : Project)
    (version : Option String) (force : Bool) : Except DCError DeleteAction :=
  if !force then
    match truthyOpt version with
    | some v => .ok (.localRemove name ds_project (some v) force)
    | none =>
      match Catalog.get_dataset cat name ds_project with
      | .error e => .error e
      | .ok d =>
        .ok (.localRemove name ds_project
          ((latest_version d.versions).map SemVer.toString) force)
  else .ok (.localRemove name ds_project none force)

/-- Local path of `delete_dataset` (lines 334-346): project lookup with the
project-not-found rewrap, then the local removal via `deleteLocal`. -/
def deleteDatasetLocalPath (cat : Catalog) (short nsName projName : String)
    (version : Option String) (force : Bool) : Except DCError DeleteAction :=
  match get_project cat projName nsName with
  | .error (.projectNotFound _) => .error (.datasetNotFound (deleteMsg short nsName projName))
  | .error e => .error e
  | .ok p => deleteLocal cat short p version force

/-- Embedding of `delete_dataset` (lines 318-346): name resolution, then the
remote delegation test
`if not catalog.metastore.is_local_dataset(namespace_name) and studio`, else
the local path. -/
def deleteDataset (cat : Catalog) (name : String) (nsArg projArg : Option String)
    (version : Option String) (force : Bool) (studio : Bool) :
    Except DCError DeleteAction :=
  let r := resolveNames cat name nsArg projArg
  if !cat.is_local_dataset r.1 && studio then
    .ok (.studioRemove r.2.2 r.1 r.2.1 version force)
  else
    deleteDatasetLocalPath cat r.2.2 r.1 r.2.1 version force

/-- Dataset metadata as surfaced by `datasets`: the fields of `DatasetInfo`
the excerpt inspects (free-form attribute strings and the temp flag). -/
structure DatasetInfo where
  name : String
  attrs : List String
  is_temp : Bool
deriving DecidableEq, Repr

/-- Split of a string at the first occurrence of a separator character,
mirroring Python's `str.split(sep, 1)`. -/
def breakFirstAux (sep : Char) : List Char → List Char → Option (List Char × List Char)
  | [], _ => none
  | c :: cs, acc =>
    if c == sep then some (acc.reverse, cs) else breakFirstAux sep cs (c :: acc)

/-- Split of an attribute string into a name and an optional value at the
first equals sign. -/
def splitAttr (a : String) : String × Option String :=
  match breakFirstAux '=' a.toList [] with
  | none => (a, none)
  | some (n, v) => (String.mk n, some (String.mk v))

/-- Modelled from the spec: `DatasetInfo.has_attr` lives outside the excerpt
(`datachain/lib/dataset_info.py`).  The spec says attribute predicates are
name-only, or name=value, with an asterisk as a wildcard value match; a
name-only predicate matches possession of an attribute with that name, a
`name=value` predicate matches that exact value, and `name=*` matches an
attribute with that name and any value. -/
def DatasetInfo.has_attr (d : DatasetInfo) (attr : String) : Bool :=
  match splitAttr attr with
  | (n, none) => d.attrs.any (fun a => (splitAttr a).1 == n)
  | (n, some v) =>
    if v == "*" then d.attrs.any (fun a => (splitAttr a).1 == n)
    else d.attrs.any (fun a => (splitAttr a).1 == n && (splitAttr a).2 == some v)

/-- Embedding of the filtering performed by `datasets` (lines 237-247) on the
dataset records returned by `catalog.list_datasets_versions`: temporary
datasets are dropped, then each attribute predicate filters the survivors in
turn. -/
def datasets (infos : List DatasetInfo) (attrs : Option (List String)) :
    List DatasetInfo :=
  let vals := infos.filter (fun d => !d.is_temp)
  match attrs with
  | none => vals
  | some l => l.foldl (fun acc a => acc.filter (fun d => DatasetInfo.has_attr d a)) vals

/-- Source of the signal schema `read_dataset` merges into the chain. -/
inductive SchemaSource where
  | fromFeatureSchema (fs : List (String × String))
  | fromColumnTypes (cts : List (String × String))
deriving DecidableEq, Repr

/-- Embedding of the schema-derivation branch of `read_dataset`
(lines 178-182): `if query.feature_schema:` (Python truthiness, so an empty
mapping is falsy) selects the stored feature schema, otherwise the schema
comes from `query.column_types or {}`.  Mappings are modelled as association
lists. -/
def deriveSchema (feature_schema column_types : Option (List (String × String))) :
    SchemaSource :=
  match feature_schema with
  | some l => if l ≠ [] then .fromFeatureSchema l else .fromColumnTypes (column_types.getD [])
  | none => .fromColumnTypes (column_types.getD [])

/-- Concrete catalog used to instantiate the theorems: one project
`dev/animals` holding a dataset `cats` with versions 1.0.0, 1.2.0 and
2.0.0. -/
def egCat : Catalog where
  default_namespace_name := "local"
  default_project_name := "default"
  projects := [⟨"dev", "animals"⟩, ⟨"local", "default"⟩]
  entries := [⟨"dev", "animals", "cats", ⟨[⟨1, 0, 0⟩, ⟨1, 2, 0⟩, ⟨2, 0, 0⟩]⟩⟩]
  is_local_dataset := fun ns => ns == "local"

/-! Order lemmas for `SemVer`. -/

theorem SemVer.lt_iff (a b : SemVer) : SemVer.lt a b = true ↔
    a.major < b.major ∨
      (a.major = b.major ∧
        (a.minor < b.minor ∨ (a.minor = b.minor ∧ a.patch < b.patch))) := by
  simp [SemVer.lt]

theorem SemVer.eq_iff (a b : SemVer) :
    a = b ↔ a.major = b.major ∧ a.minor = b.minor ∧ a.patch = b.patch := by
  cases a; cases b; simp

theorem SemVer.le_iff (a b : SemVer) :
    SemVer.le a b = true ↔ (a = b ∨ SemVer.lt a b = true) := by
  simp [SemVer.le]

theorem SemVer.le_refl (a : SemVer) : SemVer.le a a = true := by
  rw [SemVer.le_iff]; left; rfl

theorem SemVer.lt_le {a b : SemVer} (h : SemVer.lt a b = true) : SemVer.le a b = true := by
  rw [SemVer.le_iff]; right; exact h

theorem SemVer.le_trans {a b c : SemVer} (h1 : SemVer.le a b = true)
    (h2 : SemVer.le b c = true) : SemVer.le a c = true := by
  rw [SemVer.le_iff, SemVer.lt_iff, SemVer.eq_iff] at h1 h2 ⊢
  omega

theorem SemVer.le_antisymm {a b : SemVer} (h1 : SemVer.le a b = true)
    (h2 : SemVer.le b a = true) : a = b := by
  rw [SemVer.le_iff, SemVer.lt_iff, SemVer.eq_iff] at h1 h2
  rw [SemVer.eq_iff]
  omega

theorem SemVer.le_of_not_lt {a b : SemVer} (h : SemVer.lt a b = false) :
    SemVer.le b a = true := by
  have h' : ¬ SemVer.lt a b = true := by simp [h]
  rw [SemVer.lt_iff] at h'
  rw [SemVer.le_iff, SemVer.lt_iff, SemVer.eq_iff]
  omega

/-! Lemmas about `listMaxV`, the maximum of a list of versions. -/

theorem listMaxV_eq_none {l : List SemVer} : listMaxV l = none ↔ l = [] := by
  cases l with
  | nil => simp [listMaxV]
  | cons v vs =>
    simp only [listMaxV]
    cases h : listMaxV vs <;> simp [h]
    split <;> simp

theorem listMaxV_mem {l : List SemVer} {m : SemVer} (h : listMaxV l = some m) :
    m ∈ l := by
  induction l with
  | nil => simp [listMaxV] at h
  | cons v vs ih =>
    simp only [listMaxV] at h
    cases hm : listMaxV vs with
    | none =>
      simp only [hm, Option.some.injEq] at h
      subst h
      exact List.mem_cons_self v vs
    | some m' =>
      simp only [hm] at h
      cases hlt : SemVer.lt m' v with
      | true =>
        simp only [hlt, if_true, Option.some.injEq] at h
        subst h
        exact List.mem_cons_self v vs
      | false =>
        simp [hlt] at h
        subst h
        exact List.mem_cons_of_mem v (ih hm)

theorem listMaxV_le {l : List SemVer} :
    ∀ {m : SemVer}, listMaxV l = some m → ∀ x ∈ l, SemVer.le x m = true := by
  induction l with
  | nil => intro m h _ hx; simp at hx
  | cons v vs ih =>
    intro m h
    simp only [listMaxV] at h
    cases hm : listMaxV vs with
    | none =>
      simp only [hm, Option.some.injEq] at h
      subst h
      rw [listMaxV_eq_none] at hm
      subst hm
      intro x hx
      simp only [List.mem_singleton] at hx
      subst hx
      exact SemVer.le_refl x
    | some m' =>
      simp only [hm] at h
      intro x hx
      rcases List.mem_cons.mp hx with hxv | hxvs
      · cases hlt : SemVer.lt m' v with
        | true =>
          simp only [hlt, if_true, Option.some.injEq] at h
          subst h
          rw [hxv]
          exact SemVer.le_refl v
        | false =>
          simp [hlt] at h
          subst h
          rw [hxv]
          exact SemVer.le_of_not_lt hlt
      · cases hlt : SemVer.lt m' v with
        | true =>
          simp only [hlt, if_true, Option.some.injEq] at h
          subst h
          exact SemVer.le_trans (ih hm x hxvs) (SemVer.lt_le hlt)
        | false =>
          simp [hlt] at h
          subst h
          exact ih hm x hxvs

theorem listMaxV_eq_of_max {l : List SemVer} {sv : SemVer} (hmem : sv ∈ l)
    (hmax : ∀ x ∈ l, SemVer.le x sv = true) : listMaxV l = some sv := by
  cases h : listMaxV l with
  | none =>
    rw [listMaxV_eq_none] at h
    subst h
    simp at hmem
  | some m =>
    have h1 : SemVer.le sv m = true := listMaxV_le h sv hmem
    have h2 : SemVer.le m sv = true := hmax m (listMaxV_mem h)
    rw [SemVer.le_antisymm h2 h1]

/-! Lemmas about `latest_major_version`. -/

theorem latest_major_version_eq_some {vs : List SemVer} {m : Int} {sv : SemVer}
    (hmem : sv ∈ vs) (hmaj : (sv.major : Int) = m)
    (hmax : ∀ w ∈ vs, (w.major : Int) = m → SemVer.le w sv = true) :
    latest_major_version m vs = some sv := by
  unfold latest_major_version
  apply listMaxV_eq_of_max
  · rw [List.mem_filter]
    exact ⟨hmem, by simp [hmaj]⟩
  · intro x hx
    rw [List.mem_filter] at hx
    exact hmax x hx.1 (by simpa using hx.2)

theorem latest_major_version_eq_none {vs : List SemVer} {m : Int}
    (h : ∀ w ∈ vs, (w.major : Int) ≠ m) :
    latest_major_version m vs = none := by
  unfold latest_major_version
  rw [listMaxV_eq_none, List.filter_eq_nil_iff]
  intro w hw
  simpa using h w hw

/-! Error-classification lemmas: which error constructors each collaborator
and each entry point can produce. -/

theorem get_project_error {cat : Catalog} {projName nsName : String} {e : DCError}
    (h : get_project cat projName nsName = .error e) :
    ∃ msg, e = .projectNotFound msg := by
  unfold get_project at h
  split at h
  · exact absurd h (by simp)
  · exact ⟨_, (Except.error.injEq _ _ |>.mp h).symm⟩

theorem get_dataset_error {cat : Catalog} {name : String} {p : Project} {e : DCError}
    (h : Catalog.get_dataset cat name p = .error e) :
    ∃ msgs, e = .datasetNotFound msgs := by
  unfold Catalog.get_dataset at h
  split at h
  · exact absurd h (by simp)
  · exact ⟨_, (Except.error.injEq _ _ |>.mp h).symm⟩

theorem resolveVersion_error {cat : Catalog} {nsName projName name : String}
    {v : Option VersionArg} {e : DCError}
    (h : resolveVersion cat nsName projName name v = .error e) :
    (∃ msgs, e = .datasetNotFound msgs) ∨ (∃ msg, e = .datasetVersionNotFound msg) := by
  cases v with
  | none => simp [resolveVersion] at h
  | some va =>
    cases hm : VersionArg.toMajor va with
    | none => simp [resolveVersion, hm] at h
    | some major =>
      simp only [resolveVersion, hm] at h
      cases hp : get_project cat projName nsName with
      | error e' =>
        rcases get_project_error hp with ⟨msg, rfl⟩
        simp only [hp, Except.error.injEq] at h
        exact Or.inl ⟨_, h.symm⟩
      | ok p =>
        simp only [hp] at h
        cases hd : Catalog.get_dataset cat name p with
        | error e' =>
          simp only [hd, Except.error.injEq] at h
          subst h
          exact Or.inl (get_dataset_error hd)
        | ok d =>
          simp only [hd] at h
          cases hl : latest_major_version major d.versions with
          | none =>
            simp only [hl, Except.error.injEq] at h
            exact Or.inr ⟨_, h.symm⟩
          | some lm => simp [hl] at h

theorem readDataset_error {cat : Catalog} {name : String} {nsArg projArg : Option String}
    {v : Option VersionArg} {fb : Bool} {e : DCError}
    (h : readDataset cat name nsArg projArg v fb = .error e) :
    (∃ msgs, e = .datasetNotFound msgs) ∨ (∃ msg, e = .datasetVersionNotFound msg) := by
  simp only [readDataset] at h
  generalize hrv : resolveVersion cat (resolveNames cat name nsArg projArg).1
      (resolveNames cat name nsArg projArg).2.1
      (resolveNames cat name nsArg projArg).2.2 v = rv at h
  cases rv with
  | error e' =>
    simp only [Except.error.injEq] at h
    subst h
    exact resolveVersion_error hrv
  | ok w => simp at h

theorem deleteLocal_error {cat : Catalog} {name : String} {p : Project}
    {version : Option String} {force : Bool} {e : DCError}
    (h : deleteLocal cat name p version force = .error e) :
    ∃ msgs, e = .datasetNotFound msgs := by
  unfold deleteLocal at h
  split at h
  · split at h
    · exact absurd h (by simp)
    · split at h
      · rename_i heq
        rw [Except.error.injEq] at h
        subst h
        exact get_dataset_error heq
      · exact absurd h (by simp)
  · exact absurd h (by simp)

theorem deleteDatasetLocalPath_error {cat : Catalog} {short nsName projName : String}
    {version : Option String} {force : Bool} {e : DCError}
    (h : deleteDatasetLocalPath cat short nsName projName version force = .error e) :
    ∃ msgs, e = .datasetNotFound msgs := by
  unfold deleteDatasetLocalPath at h
  cases hp : get_project cat projName nsName with
  | error e' =>
    rcases get_project_error hp with ⟨msg, rfl⟩
    simp only [hp, Except.error.injEq] at h
    exact ⟨_, h.symm⟩
  | ok p =>
    simp only [hp] at h
    exact deleteLocal_error h

theorem deleteDataset_error {cat : Catalog} {name : String} {nsArg projArg : Option String}
    {version : Option String} {force studio : Bool} {e : DCError}
    (h : deleteDataset cat name nsArg projArg version force studio = .error e) :
    ∃ msgs, e = .datasetNotFound msgs := by
  simp only [deleteDataset] at h
  split at h
  · exact absurd h (by simp)
  · exact deleteDatasetLocalPath_error h

/-- C1: for every dataset and every version argument that is an integer (or a
string Python's `int` accepts), `read_dataset` resolves it as a major-version
selector: it returns the query built with the maximum semantic version of the
dataset whose major component equals that integer, and it raises a
dataset-version-not-found error when the dataset has no version with that
major component. -/
theorem claim_C1_integer_major_version
    (cat : Catalog) (nm : String) (nsArg projArg : Option String)
    (ns pr short : String)
    (hres : resolveNames cat nm nsArg projArg = (ns, pr, short))
    (hproj : cat.projects.contains ⟨ns, pr⟩ = true)
    (d : DatasetRecord) (hds : lookupDataset cat ns pr short = some d)
    (v : VersionArg) (m : Int) (hv : VersionArg.toMajor v = some m) (fb : Bool) :
    (∀ sv : SemVer, sv ∈ d.versions → (sv.major : Int) = m →
      (∀ w ∈ d.versions, (w.major : Int) = m → SemVer.le w sv = true) →
      readDataset cat nm nsArg projArg (some v) fb =
        .ok ⟨short, pr, ns, some (SemVer.toString sv), fb⟩) ∧
    ((∀ w ∈ d.versions, (w.major : Int) ≠ m) →
      readDataset cat nm nsArg projArg (some v) fb =
        .error (.datasetVersionNotFound
          ("Dataset " ++ short ++ " does not have version " ++ VersionArg.display v))) := by
  constructor
  · intro sv hmem hmaj hmax
    have hl : latest_major_version m d.versions = some sv :=
      latest_major_version_eq_some hmem hmaj hmax
    simp only [readDataset, hres, resolveVersion, hv, get_project, hproj, if_true,
      Catalog.get_dataset, hds, hl]
  · intro hnone
    have hl : latest_major_version m d.versions = none :=
      latest_major_version_eq_none hnone
    simp only [readDataset, hres, resolveVersion, hv, get_project, hproj, if_true,
      Catalog.get_dataset, hds, hl]

/-- Witness for C1 on the concrete dataset with versions 1.0.0, 1.2.0 and
2.0.0: integer version 1 resolves to 1.2.0 and integer version 3 fails with a
dataset-version-not-found error. -/
theorem claim_C1_witness :
    readDataset egCat "cats" (some "dev") (some "animals") (some (.int 1)) true =
      .ok ⟨"cats", "animals", "dev", some "1.2.0", true⟩ ∧
    readDataset egCat "cats" (some "dev") (some "animals") (some (.int 3)) true =
      .error (.datasetVersionNotFound "Dataset cats does not have version 3") := by
  constructor
  · exact (claim_C1_integer_major_version egCat "cats" (some "dev") (some "animals")
      "dev" "animals" "cats" (by decide) (by decide)
      ⟨[⟨1, 0, 0⟩, ⟨1, 2, 0⟩, ⟨2, 0, 0⟩]⟩ (by decide)
      (.int 1) 1 rfl true).1 ⟨1, 2, 0⟩ (by decide) (by decide) (by decide)
  · exact (claim_C1_integer_major_version egCat "cats" (some "dev") (some "animals")
      "dev" "animals" "cats" (by decide) (by decide)
      ⟨[⟨1, 0, 0⟩, ⟨1, 2, 0⟩, ⟨2, 0, 0⟩]⟩ (by decide)
      (.int 3) 3 rfl true).2 (by decide)

/-- C2: in both `read_dataset` (during integer-version resolution) and
`delete_dataset`, a project-not-found error raised by the project lookup is
caught and re-raised as a dataset-not-found error whose message is composed
from the dataset name, namespace and project; a project-not-found error never
reaches the caller of either entry point, and the failure is not swallowed:
the call still ends in a dataset-not-found error. -/
theorem claim_C2_project_not_found_rewrap
    (cat : Catalog) (nm : String) (nsArg projArg : Option String)
    (ns pr short : String)
    (hres : resolveNames cat nm nsArg projArg = (ns, pr, short))
    (hproj : cat.projects.contains ⟨ns, pr⟩ = false)
    (v : VersionArg) (m : Int) (hv : VersionArg.toMajor v = some m) (fb : Bool)
    (dv : Option String) (force studio : Bool)
    (hstud : cat.is_local_dataset ns = true ∨ studio = false) :
    (∀ (cat' : Catalog) (nm' : String) (nsA pjA : Option String)
        (v' : Option VersionArg) (fb' : Bool) (msg : String),
      readDataset cat' nm' nsA pjA v' fb' ≠ .error (.projectNotFound msg)) ∧
    (∀ (cat' : Catalog) (nm' : String) (nsA pjA : Option String)
        (dv' : Option String) (f' s' : Bool) (msg : String),
      deleteDataset cat' nm' nsA pjA dv' f' s' ≠ .error (.projectNotFound msg)) ∧
    readDataset cat nm nsArg projArg (some v) fb =
      .error (.datasetNotFound (readMsg short ns pr)) ∧
    String.join (readMsg short ns pr) =
      "Dataset " ++ short ++ " not found in namespace " ++ ns ++ " and project " ++ pr ∧
    deleteDataset cat nm nsArg projArg dv force studio =
      .error (.datasetNotFound (deleteMsg short ns pr)) ∧
    String.join (deleteMsg short ns pr) =
      "Dataset " ++ short ++ " not found in namespace " ++ ns ++ " and project " ++ pr := by
  refine ⟨?_, ?_, ?_, ?_, ?_, ?_⟩
  · intro cat' nm' nsA pjA v' fb' msg h
    rcases readDataset_error h with ⟨_, h'⟩ | ⟨_, h'⟩ <;> simp at h'
  · intro cat' nm' nsA pjA dv' f' s' msg h
    rcases deleteDataset_error h with ⟨_, h'⟩
    simp at h'
  · simp [readDataset, hres, resolveVersion, hv, get_project, hproj]
  · apply String.ext
    simp [String.join, readMsg, String.data_append]
  · rcases hstud with h1 | h1 <;>
      simp [deleteDataset, hres, h1, deleteDatasetLocalPath, get_project, hproj]
  · apply String.ext
    simp [String.join, deleteMsg, String.data_append]

/-- Witness for C2: on a catalog without the `dev/zoo` project, both entry
points end in a composed dataset-not-found error. -/
theorem claim_C2_witness :
    readDataset egCat "cats" (some "dev") (some "zoo") (some (.str "2")) true =
      .error (.datasetNotFound (readMsg "cats" "dev" "zoo")) ∧
    deleteDataset egCat "cats" (some "dev") (some "zoo") none false false =
      .error (.datasetNotFound (deleteMsg "cats" "dev" "zoo")) := by
  have h := claim_C2_project_not_found_rewrap egCat "cats" (some "dev") (some "zoo")
    "dev" "zoo" "cats" (by decide) (by decide) (.str "2") 2 (by decide) true
    none false false (Or.inr rfl)
  exact ⟨h.2.2.1, h.2.2.2.2.1⟩

/-- C3: `delete_dataset` with `force=True` (on the local path, with the
project present) ignores any explicit version argument and invokes the
catalog removal with no specific version and with force set, for every
version argument. -/
theorem claim_C3_force_ignores_version
    (cat : Catalog) (nm : String) (nsArg projArg : Option String)
    (ns pr short : String)
    (hres : resolveNames cat nm nsArg projArg = (ns, pr, short))
    (studio : Bool) (hstud : cat.is_local_dataset ns = true ∨ studio = false)
    (hproj : cat.projects.contains ⟨ns, pr⟩ = true)
    (version : Option String) :
    deleteDataset cat nm nsArg projArg version true studio =
      .ok (.localRemove short ⟨ns, pr⟩ none true) := by
  rcases hstud with h1 | h1 <;>
    simp [deleteDataset, hres, h1, deleteDatasetLocalPath, get_project, hproj, deleteLocal]

/-- Witness for C3: deleting `dev.animals.cats` with an explicit version and
`force=True` results in a local removal of all versions. -/
theorem claim_C3_witness :
    deleteDataset egCat "dev.animals.cats" none none (some "1.0.0") true false =
      .ok (.localRemove "cats" ⟨"dev", "animals"⟩ none true) :=
  claim_C3_force_ignores_version egCat "dev.animals.cats" none none
    "dev" "animals" "cats" (by decide) false (Or.inr rfl) (by decide) (some "1.0.0")

/-- C4: a version argument that is a string Python's `int` rejects passes
through `read_dataset` unchanged into the query builder, and no project or
catalog lookup influences the outcome: the result is the same for any two
catalogs agreeing on the default namespace and project names (their project
tables, dataset tables and locality predicates are arbitrary). -/
theorem claim_C4_nonnumeric_passthrough
    (cat : Catalog) (nm : String) (nsArg projArg : Option String) (s : String)
    (hs : parseIntPy s = none) (fb : Bool) :
    readDataset cat nm nsArg projArg (some (.str s)) fb =
      .ok { name := (resolveNames cat nm nsArg projArg).2.2,
            project_name := (resolveNames cat nm nsArg projArg).2.1,
            namespace_name := (resolveNames cat nm nsArg projArg).1,
            version := some s, fallback_to_studio := fb } ∧
    (∀ cat' : Catalog,
      cat'.default_namespace_name = cat.default_namespace_name →
      cat'.default_project_name = cat.default_project_name →
      readDataset cat' nm nsArg projArg (some (.str s)) fb =
        readDataset cat nm nsArg projArg (some (.str s)) fb) := by
  constructor
  · simp [readDataset, resolveVersion, VersionArg.toMajor, hs, VersionArg.display]
  · intro cat' h1 h2
    simp [readDataset, resolveVersion, VersionArg.toMajor, hs, VersionArg.display,
      resolveNames, h1, h2]

/-- Witness for C4: the semver string 1.0.0 passes through unchanged. -/
theorem claim_C4_witness :
    readDataset egCat "cats" none none (some (.str "1.0.0")) true =
      .ok ⟨"cats", "default", "local", some "1.0.0", true⟩ :=
  (claim_C4_nonnumeric_passthrough egCat "cats" none none "1.0.0" (by decide) true).1

/-- C5: a dataset name made of two dot-separated qualifiers and a short name
splits into namespace, project and short name in that order, and for each of
namespace and project the precedence is: non-empty component extracted from
the name, else a non-empty explicit argument, else the catalog default. -/
theorem claim_C5_name_split_precedence
    (cat : Catalog) (a b c : String) (nm : String)
    (hsplit : splitDots nm = [a, b, c]) (ha : a ≠ "") (hb : b ≠ "")
    (nsArg projArg : Option String)
    (u : String) (hu : parse_dataset_name u = (none, none, u))
    (ns2 pr2 : String) (hns2 : ns2 ≠ "") (hpr2 : pr2 ≠ "") :
    parse_dataset_name nm = (some a, some b, c) ∧
    resolveNames cat nm nsArg projArg = (a, b, c) ∧
    resolveNames cat u (some ns2) (some pr2) = (ns2, pr2, u) ∧
    resolveNames cat u none none =
      (cat.default_namespace_name, cat.default_project_name, u) := by
  have hp : parse_dataset_name nm = (some a, some b, c) := by
    simp [parse_dataset_name, hsplit]
  refine ⟨hp, ?_, ?_, ?_⟩
  · simp [resolveNames, hp, resolveComponent, truthyOpt, ha, hb]
  · simp [resolveNames, hu, resolveComponent, truthyOpt, hns2, hpr2]
  · simp [resolveNames, hu, resolveComponent, truthyOpt]

/-- Witness for C5: `dev.animals.cats` splits in namespace/project/name
order, qualifiers win over explicit arguments, explicit arguments win over
defaults, and defaults apply last. -/
theorem claim_C5_witness :
    parse_dataset_name "dev.animals.cats" = (some "dev", some "animals", "cats") ∧
    resolveNames egCat "dev.animals.cats" (some "x") (some "y") = ("dev", "animals", "cats") ∧
    resolveNames egCat "cats" (some "dev") (some "animals") = ("dev", "animals", "cats") ∧
    resolveNames egCat "cats" none none = ("local", "default", "cats") := by
  have h := claim_C5_name_split_precedence egCat "dev" "animals" "cats"
    "dev.animals.cats" (by decide) (by decide) (by decide) (some "x") (some "y")
    "cats" (by decide) "dev" "animals" (by decide) (by decide)
  exact ⟨h.1, h.2.1, h.2.2.1, h.2.2.2⟩

/-- C6: when the resolved namespace is not locally owned and `studio=True`,
`delete_dataset` delegates entirely to the remote-registry removal with the
resolved namespace, project, short name, version and force flag (the result
holds for every catalog state, so no local project lookup or removal takes
place); when the namespace is locally owned the deletion follows the local
path even with `studio=True`. -/
theorem claim_C6_studio_remote_delegation
    (cat : Catalog) (nm : String) (nsArg projArg : Option String)
    (ns pr short : String)
    (hres : resolveNames cat nm nsArg projArg = (ns, pr, short))
    (version : Option String) (force : Bool) :
    (cat.is_local_dataset ns = false →
      deleteDataset cat nm nsArg projArg version force true =
        .ok (.studioRemove short ns pr version force)) ∧
    (cat.is_local_dataset ns = true →
      deleteDataset cat nm nsArg projArg version force true =
        deleteDatasetLocalPath cat short ns pr version force) := by
  constructor
  · intro h1
    simp [deleteDataset, hres, h1]
  · intro h1
    simp [deleteDataset, hres, h1]

/-- Witness for C6: a `remote` namespace with `studio=True` goes to the
remote registry; the `local` namespace stays on the local path even with
`studio=True`. -/
theorem claim_C6_witness :
    deleteDataset egCat "remote.zoo.cats" none none (some "1.0.0") false true =
      .ok (.studioRemove "cats" "remote" "zoo" (some "1.0.0") false) ∧
    deleteDataset egCat "local.default.cats" none none none true true =
      deleteDatasetLocalPath egCat "cats" "local" "default" none true := by
  constructor
  · exact (claim_C6_studio_remote_delegation egCat "remote.zoo.cats" none none
      "remote" "zoo" "cats" (by decide) (some "1.0.0") false).1 (by decide)
  · exact (claim_C6_studio_remote_delegation egCat "local.default.cats" none none
      "local" "default" "cats" (by decide) none true).2 (by decide)

/-- Folding attribute filters over a value list is the same as one filter
requiring every attribute predicate. -/
theorem datasets_foldl_filter (l : List String) (vals : List DatasetInfo) :
    l.foldl (fun acc a => acc.filter (fun d => DatasetInfo.has_attr d a)) vals =
      vals.filter (fun d => l.all (fun a => DatasetInfo.has_attr d a)) := by
  induction l generalizing vals with
  | nil => simp
  | cons a as ih =>
    simp only [List.foldl_cons, List.all_cons]
    rw [ih, List.filter_filter]
    apply List.filter_congr
    intro d _
    rw [Bool.and_comm]

/-- Concrete dataset listing used to instantiate the `datasets` theorem: two
regular datasets (one with a `loc` attribute) and a temporary one. -/
def egInfos : List DatasetInfo :=
  [⟨"ds1", ["loc=US", "NLP"], false⟩,
   ⟨"ds2", ["NLP"], false⟩,
   ⟨"tmp", ["loc=EU"], true⟩]

/-- C7: `datasets` never returns temporary datasets, and with an attribute
list it returns exactly the non-temporary datasets satisfying every listed
attribute predicate; in particular every record returned for
`attrs=["loc=*"]` possesses a `loc` attribute. -/
theorem claim_C7_datasets_filtering
    (infos : List DatasetInfo) (attrs : List String) (ao : Option (List String)) :
    datasets infos (some attrs) =
      infos.filter (fun d => !d.is_temp && attrs.all (fun a => DatasetInfo.has_attr d a)) ∧
    (∀ d ∈ datasets infos ao, d.is_temp = false) ∧
    (∀ d ∈ datasets infos (some ["loc=*"]), ∃ a ∈ d.attrs, (splitAttr a).1 = "loc") := by
  have h1 : ∀ l : List String, datasets infos (some l) =
      infos.filter (fun d => !d.is_temp && l.all (fun a => DatasetInfo.has_attr d a)) := by
    intro l
    simp only [datasets]
    rw [datasets_foldl_filter, List.filter_filter]
    apply List.filter_congr
    intro d _
    rw [Bool.and_comm]
  refine ⟨h1 attrs, ?_, ?_⟩
  · cases ao with
    | none =>
      intro d hd
      simp only [datasets] at hd
      rw [List.mem_filter] at hd
      simpa using hd.2
    | some l =>
      intro d hd
      rw [h1 l, List.mem_filter] at hd
      have h2 := hd.2
      simp only [Bool.and_eq_true, Bool.not_eq_true'] at h2
      exact h2.1
  · intro d hd
    rw [h1 ["loc=*"], List.mem_filter] at hd
    have h2 := hd.2
    simp only [Bool.and_eq_true, List.all_cons, List.all_nil, Bool.and_true] at h2
    have h3 : DatasetInfo.has_attr d "loc=*" = true := h2.2
    have hsp : splitAttr "loc=*" = ("loc", some "*") := by decide
    simp [DatasetInfo.has_attr, hsp] at h3
    obtain ⟨a, ha, hb⟩ := h3
    exact ⟨a, ha, by simpa using hb⟩

/-- Witness for C7: on the concrete listing, `attrs=["loc=*"]` keeps exactly
the non-temporary dataset carrying a `loc` attribute, and that record indeed
possesses one. -/
theorem claim_C7_witness :
    datasets egInfos (some ["loc=*"]) = [⟨"ds1", ["loc=US", "NLP"], false⟩] ∧
    (∃ a ∈ (⟨"ds1", ["loc=US", "NLP"], false⟩ : DatasetInfo).attrs,
      (splitAttr a).1 = "loc") := by
  constructor
  · decide
  · exact (claim_C7_datasets_filtering egInfos ["loc=*"] none).2.2 _ (by decide)

/-- C8 counterexample: with a present but empty feature schema (and non-empty
column types) the schema is derived from the column types, not from the
present feature schema, because `if query.feature_schema:` tests Python
truthiness rather than presence. -/
theorem claim_C8_counterexample :
    (some ([] : List (String × String))).isSome = true ∧
    deriveSchema (some []) (some [("x", "Int")]) = .fromColumnTypes [("x", "Int")] ∧
    deriveSchema (some []) (some [("x", "Int")]) ≠ .fromFeatureSchema [] := by
  decide

/-- C8 (amended): `read_dataset` derives the signal schema from the stored
feature schema when it is present and non-empty, and otherwise from the
inferred column types (an empty mapping when those are absent or empty);
exactly one of the two sources is used. -/
theorem claim_C8_schema_source
    (fs cts : Option (List (String × String))) :
    (∀ l, fs = some l → l ≠ [] → deriveSchema fs cts = .fromFeatureSchema l) ∧
    (fs = none ∨ fs = some [] → deriveSchema fs cts = .fromColumnTypes (cts.getD [])) ∧
    ((∃ l, deriveSchema fs cts = .fromFeatureSchema l) ∨
      (∃ l, deriveSchema fs cts = .fromColumnTypes l)) ∧
    ¬((∃ l, deriveSchema fs cts = .fromFeatureSchema l) ∧
      (∃ l, deriveSchema fs cts = .fromColumnTypes l)) := by
  refine ⟨?_, ?_, ?_, ?_⟩
  · intro l hl hne
    subst hl
    simp [deriveSchema, hne]
  · rintro (rfl | rfl) <;> simp [deriveSchema]
  · cases fs with
    | none => exact Or.inr ⟨_, rfl⟩
    | some l =>
      by_cases hl : l = []
      · subst hl
        exact Or.inr ⟨cts.getD [], by simp [deriveSchema]⟩
      · exact Or.inl ⟨l, by simp [deriveSchema, hl]⟩
  · rintro ⟨⟨l1, h1⟩, ⟨l2, h2⟩⟩
    rw [h1] at h2
    simp at h2

/-- Witness for C8 (amended): a non-empty stored feature schema is the
selected source. -/
theorem claim_C8_witness :
    deriveSchema (some [("a", "T")]) none = .fromFeatureSchema [("a", "T")] :=
  (claim_C8_schema_source (some [("a", "T")]) none).1 [("a", "T")] rfl (by decide)

/-- C9: with `force=False` and no version argument, `delete_dataset` removes
exactly the dataset's latest version (the maximum stored version) and not all
versions, and the deletion only proceeds when the catalog contains the
dataset: a missing dataset ends in a dataset-not-found error. -/
theorem claim_C9_default_delete_latest
    (cat : Catalog) (nm : String) (nsArg projArg : Option String)
    (ns pr short : String)
    (hres : resolveNames cat nm nsArg projArg = (ns, pr, short))
    (studio : Bool) (hstud : cat.is_local_dataset ns = true ∨ studio = false)
    (hproj : cat.projects.contains ⟨ns, pr⟩ = true) :
    (∀ d, lookupDataset cat ns pr short = some d →
      deleteDataset cat nm nsArg projArg none false studio =
        .ok (.localRemove short ⟨ns, pr⟩
          ((latest_version d.versions).map SemVer.toString) false)) ∧
    (∀ d sv, lookupDataset cat ns pr short = some d → sv ∈ d.versions →
      (∀ w ∈ d.versions, SemVer.le w sv = true) →
      deleteDataset cat nm nsArg projArg none false studio =
        .ok (.localRemove short ⟨ns, pr⟩ (some (SemVer.toString sv)) false)) ∧
    (lookupDataset cat ns pr short = none →
      ∃ msgs, deleteDataset cat nm nsArg projArg none false studio =
        .error (.datasetNotFound msgs)) := by
  have hbase : ∀ d, lookupDataset cat ns pr short = some d →
      deleteDataset cat nm nsArg projArg none false studio =
        .ok (.localRemove short ⟨ns, pr⟩
          ((latest_version d.versions).map SemVer.toString) false) := by
    intro d hds
    rcases hstud with h1 | h1 <;>
      simp [deleteDataset, hres, h1, deleteDatasetLocalPath, get_project, hproj,
        deleteLocal, truthyOpt, Catalog.get_dataset, hds]
  refine ⟨hbase, ?_, ?_⟩
  · intro d sv hds hmem hmax
    have hlv : latest_version d.versions = some sv := listMaxV_eq_of_max hmem hmax
    rw [hbase d hds, hlv]
    rfl
  · intro hds
    refine ⟨["Dataset " ++ short ++ " not found"], ?_⟩
    rcases hstud with h1 | h1 <;>
      simp [deleteDataset, hres, h1, deleteDatasetLocalPath, get_project, hproj,
        deleteLocal, truthyOpt, Catalog.get_dataset, hds]

/-- Witness for C9: deleting `dev.animals.cats` with no version and no force
removes exactly version 2.0.0 (the latest), and deleting the missing
`dev.animals.dogs` fails with a dataset-not-found error. -/
theorem claim_C9_witness :
    deleteDataset egCat "dev.animals.cats" none none none false false =
      .ok (.localRemove "cats" ⟨"dev", "animals"⟩ (some "2.0.0") false) ∧
    ∃ msgs, deleteDataset egCat "dev.animals.dogs" none none none false false =
      .error (.datasetNotFound msgs) := by
  constructor
  · exact (claim_C9_default_delete_latest egCat "dev.animals.cats" none none
      "dev" "animals" "cats" (by decide) false (Or.inr rfl) (by decide)).2.1
      ⟨[⟨1, 0, 0⟩, ⟨1, 2, 0⟩, ⟨2, 0, 0⟩]⟩ ⟨2, 0, 0⟩ (by decide) (by decide) (by decide)
  · exact (claim_C9_default_delete_latest egCat "dev.animals.dogs" none none
      "dev" "animals" "dogs" (by decide) false (Or.inr rfl) (by decide)).2.2 (by decide)

/-- C10: with an integer-like version argument, `read_dataset` resolves the
project and dataset against the local catalog before building the query, so
dataset-not-found and dataset-version-not-found errors arise at this stage
for every value of the Studio fallback flag; the flag only lands in the
constructed query and never changes the resolution outcome. -/
theorem claim_C10_integer_resolution_local
    (cat : Catalog) (nm : String) (nsArg projArg : Option String)
    (ns pr short : String)
    (hres : resolveNames cat nm nsArg projArg = (ns, pr, short))
    (v : VersionArg) (m : Int) (hv : VersionArg.toMajor v = some m) :
    (cat.projects.contains ⟨ns, pr⟩ = false →
      ∀ fb, readDataset cat nm nsArg projArg (some v) fb =
        .error (.datasetNotFound (readMsg short ns pr))) ∧
    (cat.projects.contains ⟨ns, pr⟩ = true → lookupDataset cat ns pr short = none →
      ∀ fb, readDataset cat nm nsArg projArg (some v) fb =
        .error (.datasetNotFound ["Dataset " ++ short ++ " not found"])) ∧
    (∀ d, cat.projects.contains ⟨ns, pr⟩ = true →
      lookupDataset cat ns pr short = some d →
      (∀ w ∈ d.versions, (w.major : Int) ≠ m) →
      ∀ fb, readDataset cat nm nsArg projArg (some v) fb =
        .error (.datasetVersionNotFound
          ("Dataset " ++ short ++ " does not have version " ++ VersionArg.display v))) ∧
    (∀ (va : Option VersionArg) (fb fb' : Bool) (q : DatasetQuery),
      readDataset cat nm nsArg projArg va fb = .ok q →
      readDataset cat nm nsArg projArg va fb' = .ok { q with fallback_to_studio := fb' }) ∧
    (∀ (va : Option VersionArg) (fb fb' : Bool) (e : DCError),
      readDataset cat nm nsArg projArg va fb = .error e →
      readDataset cat nm nsArg projArg va fb' = .error e) := by
  refine ⟨?_, ?_, ?_, ?_, ?_⟩
  · intro hproj fb
    simp [readDataset, hres, resolveVersion, hv, get_project, hproj]
  · intro hproj hds fb
    simp [readDataset, hres, resolveVersion, hv, get_project, hproj,
      Catalog.get_dataset, hds]
  · intro d hproj hds hnone fb
    have hl : latest_major_version m d.versions = none :=
      latest_major_version_eq_none hnone
    simp [readDataset, hres, resolveVersion, hv, get_project, hproj,
      Catalog.get_dataset, hds, hl]
  · intro va fb fb' q h
    simp only [readDataset] at h ⊢
    cases hrv : resolveVersion cat (resolveNames cat nm nsArg projArg).1
        (resolveNames cat nm nsArg projArg).2.1
        (resolveNames cat nm nsArg projArg).2.2 va with
    | error e' => simp [hrv] at h
    | ok w =>
      simp only [hrv] at h ⊢
      rw [Except.ok.injEq] at h
      subst h
      rfl
  · intro va fb fb' e h
    simp only [readDataset] at h ⊢
    cases hrv : resolveVersion cat (resolveNames cat nm nsArg projArg).1
        (resolveNames cat nm nsArg projArg).2.1
        (resolveNames cat nm nsArg projArg).2.2 va with
    | error e' =>
      simp only [hrv, Except.error.injEq] at h ⊢
      exact h
    | ok w => simp [hrv] at h

/-- Witness for C10: the dataset lacking a major version 3 makes
`read_dataset` fail with a dataset-version-not-found error already at
resolution time, with the Studio fallback flag still set to each value. -/
theorem claim_C10_witness :
    readDataset egCat "dev.animals.cats" none none (some (.str "3")) false =
      .error (.datasetVersionNotFound "Dataset cats does not have version 3") ∧
    readDataset egCat "dev.animals.cats" none none (some (.str "3")) true =
      .error (.datasetVersionNotFound "Dataset cats does not have version 3") := by
  have h := (claim_C10_integer_resolution_local egCat "dev.animals.cats" none none
    "dev" "animals" "cats" (by decide) (.str "3") 3 (by decide)).2.2.1
    ⟨[⟨1, 0, 0⟩, ⟨1, 2, 0⟩, ⟨2, 0, 0⟩]⟩ (by decide) (by decide) (by decide)
  exact ⟨h false, h true⟩

end Datachain
